import Mathlib

/-!
Verification development for the AVM2 object layer of this repository:
the ByteArrayObject property overlay (src/core/src/avm2/object/bytearray_object.rs),
the DomainObject allocator (src/core/src/avm2/object/domain_object.rs), and the
String native builtins (src/core/src/avm2/globals/string.rs).

Shallow embedding conventions:
  * Machine integers are modelled as `Nat` with explicit `% 2 ^ w` where wrapping
    matters (`usize` parsing overflow is not modelled; it does not affect any claim).
  * Rust `Result` is modelled as `Except String`.
  * `f64` values reaching the string builtins are modelled by `AvmFloat`
    (NaN or a rational), which captures exactly the operations the code performs
    on them: sign test, NaN test, truncating cast to `usize`.
  * Code of the repository that is not under src/ (ByteArrayStorage, the
    ScriptObjectData base table, value coercions, string utils) is modelled from
    the spec; each such definition carries a doc comment saying so.
-/

namespace Avm2

/-- Namespace classification of a property name (spec section 6: public,
internal-to-package, private-to-class, explicit-URI). -/
inductive NsKind where
  | public
  | packageInternal
  | classPrivate
  | explicitURI (uri : String)
deriving DecidableEq, Repr

/-- Mirrors `Namespace::is_public` used by the overlay tests in
bytearray_object.rs. -/
def NsKind.is_public : NsKind → Bool
  | .public => true
  | _ => false

/-- A qualified property name: namespace kind plus local string
(`QName` in names.rs). -/
structure QName where
  ns : NsKind
  local_name : String
deriving DecidableEq, Repr

/-- Accumulating base-10 digit parser over the characters of a string. -/
def parseDigits : List Char → Nat → Option Nat
  | [], acc => some acc
  | c :: cs, acc =>
      if c.isDigit then parseDigits cs (acc * 10 + (c.toNat - '0'.toNat)) else none

/-- Mirrors `name.local_name().parse::<usize>()` in bytearray_object.rs:
a local string parses as a property index when it is a non-empty string of
base-10 digits. (Rust's parser also rejects values above `usize::MAX` and
accepts a leading `+`; neither affects any claim.) -/
def parseIndex (s : String) : Option Nat :=
  if s.toList.isEmpty then none else parseDigits s.toList 0

/-- The overlay routing test shared by every ByteArrayObject operation:
public namespace and local string parsing as an index. -/
def indexOf (name : QName) : Option Nat :=
  if name.ns.is_public then parseIndex name.local_name else none

/-- Model of an `f64` as the string builtins consume it: NaN or a rational.
The code only tests sign, tests NaN, and casts to `usize`; infinities are not
needed by any claim and are omitted. -/
inductive AvmFloat where
  | nan
  | val (q : ℚ)
deriving DecidableEq, Repr

/-- IEEE comparison `n < 0.0`: false for NaN. -/
def AvmFloat.lt_zero : AvmFloat → Bool
  | .nan => false
  | .val q => decide (q < 0)

/-- Mirrors `f64::is_nan`. -/
def AvmFloat.is_nan : AvmFloat → Bool
  | .nan => true
  | .val _ => false

/-- Rust `usize::MAX` on a 64-bit target. -/
def usizeMax : Nat := 2 ^ 64 - 1

/-- Rust saturating cast `n as usize` on an `f64`: NaN goes to 0, negatives to
0, otherwise truncation toward zero, saturating at `usize::MAX`. -/
def AvmFloat.toUsize : AvmFloat → Nat
  | .nan => 0
  | .val q => if q < 0 then 0 else min q.floor.toNat usizeMax

/-- The tagged runtime value union (spec section 6). `array xs` stands for a
reference to an ArrayObject whose storage holds `xs`; `object w` stands for a
reference to some other object, carrying the string primitive it wraps when it
wraps one (`none` for plain objects). -/
inductive Value where
  | undefined
  | null
  | boolean (b : Bool)
  | unsigned (n : Nat)
  | num (f : AvmFloat)
  | string (s : String)
  | array (xs : List Value)
  | object (wrapped : Option String)

/-- Mirrors `matches!(v, Value::Undefined)`. -/
def Value.isUndefined : Value → Bool
  | .undefined => true
  | _ => false

/-- Mirrors `matches!(v, Value::String(_))` — the `if let Value::String(s)`
test of the string builtins. -/
def Value.isStringV : Value → Bool
  | .string _ => true
  | _ => false

/-- Modelled from the spec (section 4.1 `value_of`): "for most variants this is
simply self as a generic object reference, but variants wrapping a primitive
return the wrapped scalar". An object wrapping a string primitive yields that
string; everything else yields itself. -/
def value_of : Value → Value
  | .object (some s) => .string s
  | v => v

/-- Modelled from the spec: numeric coercion to an unsigned 32-bit integer
("Numeric property values are coerced to an unsigned 32-bit integer", spec
section 4.2). An unsigned value is reduced mod 2^32; NaN coerces to 0; a finite
number is truncated toward zero and reduced mod 2^32 (ECMA ToUint32). Values
whose coercion would invoke script (objects) are given a conservative result
here; no claim depends on them. -/
def coerce_to_u32 : Value → Nat
  | .unsigned n => n % 2 ^ 32
  | .num .nan => 0
  | .num (.val q) => ((q.num.tdiv (q.den : Int)).emod (2 ^ 32)).toNat
  | .boolean b => if b then 1 else 0
  | _ => 0

/-- Modelled from the spec: the ScriptObjectData base every object variant
embeds (spec section 3 ObjectCore) — a dynamic property table keyed by `QName`,
plus optional prototype and class references (heap addresses). -/
structure ScriptObjectData where
  proto : Option Nat
  klass : Option Nat
  table : List (QName × Value)

/-- Mirrors `ScriptObjectData::base_new(proto, class)`. -/
def base_new (proto klass : Option Nat) : ScriptObjectData :=
  { proto := proto, klass := klass, table := [] }

/-- Modelled from the spec: generic-table read (spec section 4.1, step 2 of
resolution: "else the object's own property table"); a miss surfaces as
undefined at the local level. -/
def base_get (b : ScriptObjectData) (name : QName) : Value :=
  match b.table.find? (fun p => p.1 = name) with
  | some p => p.2
  | none => .undefined

/-- Modelled from the spec: generic-table write (property table keys unique per
object, spec section 3). -/
def base_set (b : ScriptObjectData) (name : QName) (v : Value) : ScriptObjectData :=
  { b with table := (name, v) :: b.table.filter (fun p => ¬ p.1 = name) }

/-- Modelled from the spec: generic-table membership query. -/
def base_has (b : ScriptObjectData) (name : QName) : Bool :=
  (b.table.find? (fun p => p.1 = name)).isSome

/-- Modelled from the spec: generic-table removal, returning whether a removal
occurred ("removes ... a table entry; returns whether removal occurred", spec
section 4.1). -/
def base_delete (b : ScriptObjectData) (name : QName) : Bool × ScriptObjectData :=
  (base_has b name, { b with table := b.table.filter (fun p => ¬ p.1 = name) })

/-- Modelled from the spec: ByteArrayStorage is a growable byte buffer
(spec section 3); each element is a byte (a `Nat` kept below 256 by writes). -/
abbrev ByteArrayStorage := List Nat

/-- Mirrors `ByteArrayStorage::new()`: an empty buffer. -/
def ByteArrayStorage.new : ByteArrayStorage := []

/-- Modelled from the spec: "get(index) -> Option<byte>: None when index ≥
current length" (spec section 4.2). -/
def bas_get (s : ByteArrayStorage) (i : Nat) : Option Nat :=
  s[i]?

/-- Modelled from the spec: "set(index, byte): if index ≥ current length, grows
the buffer to index + 1, zero-filling all newly created intermediate positions,
then stores the value" (spec section 4.2). -/
def bas_set (s : ByteArrayStorage) (i v : Nat) : ByteArrayStorage :=
  if i < List.length s then List.set s i v
  else List.set (s ++ List.replicate (i + 1 - List.length s) 0) i v

/-- Modelled from the spec: "delete(index): removes the element at index from
the live view"; the spec leaves the exact policy open (section 9), and the
caller in bytearray_object.rs ignores this operation's effect on its return
value, so the choice (zero-in-place) does not affect any claim. -/
def bas_delete (s : ByteArrayStorage) (i : Nat) : ByteArrayStorage :=
  if i < List.length s then List.set s i 0 else s

/-- The ByteArrayObject state: base script object plus byte storage
(`ByteArrayObjectData` in bytearray_object.rs, lines 37-44). -/
structure ByteArrayObjectData where
  base : ScriptObjectData
  storage : ByteArrayStorage

/-- Translation of `ByteArrayObject::get_property_local`
(bytearray_object.rs lines 50-73): a public name parsing as an index is read
from the buffer (an in-bounds byte surfaces as `Value::Unsigned`, out of bounds
as undefined); any other name goes to the base table. The `receiver` argument
and the deferred getter resolution of the base path are not modelled (the base
table model returns plain values). -/
def get_property_local (o : ByteArrayObjectData) (name : QName) : Value :=
  match indexOf name with
  | some index =>
      match bas_get o.storage index with
      | some val => .unsigned val
      | none => .undefined
  | none => base_get o.base name

/-- Translation of `ByteArrayObject::set_property_local`
(bytearray_object.rs lines 75-103): a public name parsing as an index stores
`coerce_to_u32(value) as u8` into the buffer; any other name goes to the base
table. Returns the new object state. -/
def set_property_local (o : ByteArrayObjectData) (name : QName) (value : Value) :
    ByteArrayObjectData :=
  match indexOf name with
  | some index => { o with storage := bas_set o.storage index (coerce_to_u32 value % 2 ^ 8) }
  | none => { o with base := base_set o.base name value }

/-- Translation of `ByteArrayObject::init_property_local`
(bytearray_object.rs lines 105-133): identical routing to
`set_property_local` (the final/overwritable distinction lives in the base
table model, which is not needed by any claim). -/
def init_property_local (o : ByteArrayObjectData) (name : QName) (value : Value) :
    ByteArrayObjectData :=
  match indexOf name with
  | some index => { o with storage := bas_set o.storage index (coerce_to_u32 value % 2 ^ 8) }
  | none => { o with base := base_set o.base name value }

/-- Translation of `ByteArrayObject::delete_property`
(bytearray_object.rs lines 147-156): a public name parsing as an index calls
`storage.delete(index)` and returns `true` unconditionally; any other name is
removed from the base table, returning whether a table entry was removed. -/
def delete_property (o : ByteArrayObjectData) (name : QName) : Bool × ByteArrayObjectData :=
  match indexOf name with
  | some index => (true, { o with storage := bas_delete o.storage index })
  | none =>
      let r := base_delete o.base name
      (r.1, { o with base := r.2 })

/-- Translation of `ByteArrayObject::has_own_property`
(bytearray_object.rs lines 158-166): a public name parsing as an index reports
whether the buffer holds that index; any other name queries the base table. -/
def has_own_property (o : ByteArrayObjectData) (name : QName) : Bool :=
  match indexOf name with
  | some index => (bas_get o.storage index).isSome
  | none => base_has o.base name

/-! ### Mutation-permit traces

The spec (section 5) requires that an operation holding the exclusive mutation
permit of an object (the `GcCell` write borrow in the code) release it before
delegating to any operation that may itself mutate the same object (such as a
value coercion that can invoke script, or the deferred `rv.resolve` of a
getter/setter). We model each operation of bytearray_object.rs as the sequence
of permit events its body performs, read off line by line, and check the
discipline on these traces. -/

/-- A permit-relevant event inside one protocol operation: acquiring the
object's exclusive write borrow, releasing it, or calling out to an operation
that may invoke script and mutate the same object. -/
inductive PermitEvent where
  | acquireWrite
  | releaseWrite
  | delegated
deriving DecidableEq, Repr

/-- Permit events of `ByteArrayObject::set_property_local`
(bytearray_object.rs lines 75-103), by branch. Index-name branch: the write
borrow is taken (line 82), `value.coerce_to_u32(activation)` — which may invoke
script via `valueOf` — runs while it is held (line 88), and the borrow drops at
the early return (line 90). Table-name branch: the write borrow is taken
(line 82), `base.set_property_local` runs under it (lines 94-96, pure table
update), the borrow is dropped (line 98), and only then `rv.resolve` runs
(line 100). -/
def set_property_local_trace (isIndexName : Bool) : List PermitEvent :=
  if isIndexName then [.acquireWrite, .delegated, .releaseWrite]
  else [.acquireWrite, .releaseWrite, .delegated]

/-- Permit events of `ByteArrayObject::init_property_local`
(bytearray_object.rs lines 105-133): the body is line-for-line identical to
`set_property_local`, including the coercion under the held write borrow
(line 118) and the `drop(write)` before `rv.resolve` (lines 128-130). -/
def init_property_local_trace (isIndexName : Bool) : List PermitEvent :=
  set_property_local_trace isIndexName

/-- Does some `delegated` event occur while the write permit is held
(depth counts currently-held write borrows, starting from `d`)? -/
def delegatedWhileHeld : List PermitEvent → Nat → Bool
  | [], _ => false
  | .acquireWrite :: es, d => delegatedWhileHeld es (d + 1)
  | .releaseWrite :: es, d => delegatedWhileHeld es (d - 1)
  | .delegated :: es, d => decide (0 < d) || delegatedWhileHeld es d

/-- The spec's permit discipline for one operation trace: every delegated call
happens with the write permit released. -/
def releasesPermitBeforeDelegating (t : List PermitEvent) : Bool :=
  ! delegatedWhileHeld t 0

/-! ### Heap model for allocation (`derive`, allocators)

`GcCell::allocate` hands out a fresh cell; we model the GC heap as a list of
cells addressed by position, with allocation appending at the end. Two objects
share storage exactly when they are the same cell, i.e. the same address. -/

/-- A heap cell: one allocated object. Only the variants the claims need. -/
inductive HeapObj where
  | byteArray (d : ByteArrayObjectData)
  | script (d : ScriptObjectData)

/-- Is this cell a ByteArrayObject (the `Object::ByteArrayObject` variant)? -/
def HeapObj.isByteArray : HeapObj → Bool
  | .byteArray _ => true
  | .script _ => false

/-- The GC heap: allocated cells addressed by position. -/
abbrev Heap := List HeapObj

/-- Allocate a fresh cell (`GcCell::allocate`): the new object lives at a fresh
address at the end of the heap. -/
def allocate (h : Heap) (o : HeapObj) : Nat × Heap :=
  (h.length, h ++ [o])

/-- Translation of `ByteArrayObject::derive` (bytearray_object.rs lines
178-190): allocates a fresh `ByteArrayObjectData` whose base is
`base_new(Some(this), None)` — prototype is the source object, no class link —
and whose storage is `ByteArrayStorage::new()`, i.e. empty. `selfAddr` is the
address of the source object (`this`). -/
def bytearray_derive (h : Heap) (selfAddr : Nat) : Nat × Heap :=
  allocate h (.byteArray { base := base_new (some selfAddr) none
                           storage := ByteArrayStorage.new })

/-! ### DomainObject allocation (domain_object.rs) -/

/-- An application domain reference (the shared class/script registry); opaque
to the claims, identified by an id. -/
structure Domain where
  id : Nat
deriving DecidableEq, Repr

/-- The DomainObject state (domain_object.rs lines 45-53). -/
structure DomainObjectData where
  base : ScriptObjectData
  domain : Domain

/-- What `appdomain_allocator` reads from the `globals()` object at the base of
the constructor's scope: whether it carries an application domain
(`as_application_domain`, `None` for non-domain objects). -/
structure GlobalsObj where
  as_application_domain : Option Domain

/-- What `appdomain_allocator` reads from the constructor class object: its
scope stack (`get_scope`, `None` when empty) whose `globals()` is the object at
the base of the lexical scope. -/
structure CtorClass where
  scope : Option GlobalsObj
  addr : Nat

/-- Translation of `appdomain_allocator` (domain_object.rs lines 19-39):
fails when the constructor class has no scope stack; fails when the scope's
globals object carries no application domain; otherwise builds a fresh
`DomainObjectData` over `base_new(Some(proto), Some(class))`. -/
def appdomain_allocator (class' : CtorClass) (protoAddr : Nat) :
    Except String DomainObjectData :=
  match class'.scope with
  | none => .error "Constructor has an empty scope stack"
  | some scope =>
      match scope.as_application_domain with
      | none =>
          .error "Constructor scope must have an appdomain at the bottom of it's scope stack"
      | some domain =>
          .ok { base := base_new (some protoAddr) (some class'.addr), domain := domain }

/-! ### String builtins (globals/string.rs)

Native methods receive an optional receiver and an argument list and produce a
`Result<Value, Error>`. The receiver object is represented by its `Value`
(an object wrapping a string primitive has `value_of` = that string). Strings
are Lean `String`s (sequences of Unicode scalar values, like Rust `str`);
`encode_utf16` is modelled explicitly. -/

/-- UTF-16 encoding of one Unicode scalar value, as a list of code units
(mirrors what Rust's `str::encode_utf16` produces per char). -/
def charUtf16 (c : Char) : List Nat :=
  if c.toNat < 0x10000 then [c.toNat]
  else [0xD800 + (c.toNat - 0x10000) / 0x400, 0xDC00 + (c.toNat - 0x10000) % 0x400]

/-- Mirrors `s.encode_utf16()`: the UTF-16 code units of the string. -/
def encodeUtf16 (s : String) : List Nat :=
  s.toList.flatMap charUtf16

/-- Modelled from the spec: `string_utils::utf16_code_unit_to_char` from the
string utility module (not under src/) — converts one UTF-16 code unit to a
character, with a replacement character for a lone surrogate half. -/
def utf16_code_unit_to_char (c : Nat) : Char :=
  if c.isValidChar then Char.ofNat c else '�'

/-- Modelled from the spec: `coerce_to_number`, the floating-point numeric
coercion (value.rs, not under src/). A number is itself; undefined coerces to
NaN; null and false to 0, true to 1; an unsigned to its value (exact below
2^32). String and object coercion (which may invoke script) is outside the
claims and conservatively yields NaN. -/
def coerce_to_number : Value → AvmFloat
  | .num f => f
  | .undefined => .nan
  | .null => .val 0
  | .boolean b => .val (if b then 1 else 0)
  | .unsigned n => .val n
  | _ => .nan

/-- Modelled from the spec: `coerce_to_i32`, integer coercion (value.rs, not
under src/), ECMA ToInt32: truncate toward zero, wrap mod 2^32 into
[-2^31, 2^31). Only its clamp-to-non-negative use for `split`'s limit matters
to the claims. -/
def coerce_to_i32 (v : Value) : Int :=
  let u : Nat := coerce_to_u32 v
  if u < 2 ^ 31 then (u : Int) else (u : Int) - 2 ^ 32

/-- Mirrors `Value::from(this)` for a receiver object and
`args.get(i).unwrap_or(&default)`. -/
def getArg (args : List Value) (i : Nat) (default : Value) : Value :=
  args.getD i default

/-- Translation of the `length` getter (string.rs lines 49-61): with a
receiver whose `value_of` is a string, the count of UTF-16 code units (as a
Number); otherwise falls through to `Ok(Undefined)`. -/
def length (this : Option Value) (_args : List Value) : Except String Value :=
  match this with
  | some t =>
      match value_of t with
      | .string s => .ok (.num (.val ((encodeUtf16 s).length : ℚ)))
      | _ => .ok .undefined
  | none => .ok .undefined

/-- Translation of `String.charAt` (string.rs lines 64-91): coerces the first
argument (default `Number(0.0)`) with the floating-point coercion; a negative
index returns `""` immediately; otherwise the index is `n as usize` with NaN
normalized to 0, and the UTF-16 code unit at that index (converted to a
one-character string, empty when out of range) is returned. -/
def char_at (this : Option Value) (args : List Value) : Except String Value :=
  match this with
  | some t =>
      match value_of t with
      | .string s =>
          let n := coerce_to_number (getArg args 0 (.num (.val 0)))
          if n.lt_zero then .ok (.string "")
          else
            let index := if ! n.is_nan then n.toUsize else 0
            .ok (.string (((encodeUtf16 s)[index]?).elim ""
              (fun c => (utf16_code_unit_to_char c).toString)))
      | _ => .ok .undefined
  | none => .ok .undefined

/-- Translation of `String.charCodeAt` (string.rs lines 94-121): same index
handling as `charAt`; a negative index returns NaN immediately; an in-range
index returns the UTF-16 code unit as a Number, out of range returns NaN. -/
def char_code_at (this : Option Value) (args : List Value) : Except String Value :=
  match this with
  | some t =>
      match value_of t with
      | .string s =>
          let n := coerce_to_number (getArg args 0 (.num (.val 0)))
          if n.lt_zero then .ok (.num .nan)
          else
            let index := if ! n.is_nan then n.toUsize else 0
            .ok (((encodeUtf16 s)[index]?).elim (.num .nan)
              (fun c => .num (.val (c : ℚ))))
      | _ => .ok .undefined
  | none => .ok .undefined

/-- Modelled from the spec: `coerce_to_string` (value.rs, not under src/).
A string is itself; an object wrapping a string primitive coerces to it.
Other coercions (which may invoke script `toString`) are outside the claims
and conservatively yield a fixed string. -/
def coerce_to_string : Value → String
  | .string s => s
  | .object (some s) => s
  | .undefined => "undefined"
  | .null => "null"
  | _ => ""

/-- Translation of `String.split` (string.rs lines 124-178). With no receiver,
falls through to `Ok(Undefined)`. If the delimiter argument is undefined, the
result is a one-element array holding the receiver value unconverted. (The
regexp check of lines 139-144 only logs a warning; regexp delimiters are not
modelled.) Otherwise receiver and delimiter coerce to strings and `limit` is
`usize::MAX` when absent, else the integer coercion clamped to non-negative.
An empty delimiter yields the receiver's characters (up to `limit`), each as a
one-character string; a non-empty delimiter yields the substring split (up to
`limit`). -/
def split (this : Option Value) (args : List Value) : Except String Value :=
  match this with
  | some thisV =>
      let delimiter := getArg args 0 .undefined
      if delimiter.isUndefined then .ok (.array [thisV])
      else
        let sv := coerce_to_string thisV
        let delimS := coerce_to_string delimiter
        let limit : Nat :=
          match getArg args 1 .undefined with
          | .undefined => usizeMax
          | v => (max (coerce_to_i32 v) 0).toNat
        if delimS = "" then
          .ok (.array ((sv.toList.take limit).map (fun c => .string c.toString)))
        else
          .ok (.array (((sv.splitOn delimS).take limit).map (fun p => .string p)))
  | none => .ok .undefined

/-! ## Theorems -/

/-- Reading back the index just written: `bas_get` after `bas_set` at the same
index returns the stored byte, whether the write was in place or grew the
buffer. -/
theorem bas_get_bas_set_self (s : ByteArrayStorage) (i v : Nat) :
    bas_get (bas_set s i v) i = some v := by
  unfold bas_get bas_set
  by_cases h : i < List.length s
  · rw [if_pos h]
    exact List.getElem?_set_eq_of_lt v h
  · rw [if_neg h]
    refine List.getElem?_set_eq_of_lt v ?_
    rw [List.length_append, List.length_replicate]
    omega

/-- C1: for every index i and value v, `set_property_local` on a
ByteArrayObject with a public-namespace name whose local string parses as i and
an unsigned value v, followed by `get_property_local` with the same name,
returns the unsigned value v mod 256 — the value coerced to u32 and truncated
to its low 8 bits. -/
theorem c1_set_get_byte_roundtrip (o : ByteArrayObjectData) (s : String) (i v : Nat)
    (h : parseIndex s = some i) :
    get_property_local (set_property_local o ⟨.public, s⟩ (.unsigned v)) ⟨.public, s⟩ =
      .unsigned (v % 2 ^ 8) := by
  have hidx : indexOf ⟨.public, s⟩ = some i := by
    simp [indexOf, NsKind.is_public, h]
  simp only [get_property_local, set_property_local, hidx, bas_get_bas_set_self,
    coerce_to_u32]
  rw [Nat.mod_mod_of_dvd v (by norm_num)]

/-- Witness for C1 at index 3 and value 300: the read returns 300 mod 256. -/
theorem c1_witness :
    parseIndex "3" = some 3 ∧
    get_property_local
        (set_property_local ⟨base_new none none, []⟩ ⟨.public, "3"⟩ (.unsigned 300))
        ⟨.public, "3"⟩ =
      .unsigned (300 % 2 ^ 8) :=
  ⟨by decide, c1_set_get_byte_roundtrip ⟨base_new none none, []⟩ "3" 3 300 (by decide)⟩

/-- C2: a name with public namespace whose local string parses as an index is
served by the byte buffer on every operation — its read result is a function of
the buffer alone whatever the generic table holds, writes and deletes leave the
base (and its table) untouched, and `has_own_property` consults the buffer —
while a name that fails to parse as an index falls through to the generic-table
path of each operation. -/
theorem c2_overlay_routing (o : ByteArrayObjectData) (name : QName) (value : Value) :
    (∀ i, indexOf name = some i →
      ((∀ b, get_property_local ⟨b, o.storage⟩ name =
          (bas_get o.storage i).elim Value.undefined Value.unsigned) ∧
        (set_property_local o name value).base = o.base ∧
        (set_property_local o name value).storage =
          bas_set o.storage i (coerce_to_u32 value % 2 ^ 8) ∧
        (init_property_local o name value).base = o.base ∧
        has_own_property o name = (bas_get o.storage i).isSome ∧
        (delete_property o name).1 = true ∧
        (delete_property o name).2.base = o.base)) ∧
    (indexOf name = none →
      (get_property_local o name = base_get o.base name ∧
        set_property_local o name value = ⟨base_set o.base name value, o.storage⟩ ∧
        init_property_local o name value = ⟨base_set o.base name value, o.storage⟩ ∧
        has_own_property o name = base_has o.base name ∧
        delete_property o name =
          ((base_delete o.base name).1, ⟨(base_delete o.base name).2, o.storage⟩))) := by
  constructor
  · intro i hi
    refine ⟨fun b => ?_, ?_, ?_, ?_, ?_, ?_, ?_⟩ <;>
      first
        | (simp [get_property_local, hi]
           cases bas_get o.storage i <;> rfl)
        | simp [set_property_local, init_property_local, has_own_property,
            delete_property, hi]
  · intro hn
    refine ⟨?_, ?_, ?_, ?_, ?_⟩ <;>
      simp [get_property_local, set_property_local, init_property_local,
        has_own_property, delete_property, hn]

/-- Witness for C2: index name "0" is served by the buffer even with a
like-named table entry present; name "x" falls through to the table. -/
theorem c2_witness :
    (∀ b, get_property_local ⟨b, [7]⟩ ⟨.public, "0"⟩ =
        (bas_get [7] 0).elim Value.undefined Value.unsigned) ∧
    get_property_local ⟨⟨none, none, [(⟨.public, "x"⟩, .null)]⟩, [7]⟩ ⟨.public, "x"⟩ =
      base_get ⟨none, none, [(⟨.public, "x"⟩, .null)]⟩ ⟨.public, "x"⟩ :=
  ⟨((c2_overlay_routing ⟨⟨none, none, [(⟨.public, "0"⟩, .null)]⟩, [7]⟩ ⟨.public, "0"⟩
        .null).1 0 (by decide)).1,
    ((c2_overlay_routing ⟨⟨none, none, [(⟨.public, "x"⟩, .null)]⟩, [7]⟩ ⟨.public, "x"⟩
        .null).2 (by decide)).1⟩

/-- C3 (refuting the claim as stated, in favour of the spec): on the
index-name path, `set_property_local` and `init_property_local` perform the
delegated numeric coercion of the incoming value — which may invoke script and
mutate the same object — while the exclusive write permit is still held, so
the first permit is NOT released before the delegated call; the table-name
path, by contrast, does drop the permit before resolving the deferred result. -/
theorem c3_permit_held_during_coercion :
    releasesPermitBeforeDelegating (set_property_local_trace true) = false ∧
    releasesPermitBeforeDelegating (init_property_local_trace true) = false ∧
    releasesPermitBeforeDelegating (set_property_local_trace false) = true := by
  decide

/-- C4 counterexample: on the empty ByteArrayObject, deleting the public index
name "0" — an index at/beyond the buffer length, so no element exists to
remove — nevertheless reports `true`, contradicting the claim that it reports
no removal occurred. -/
theorem c4_counterexample :
    parseIndex "0" = some 0 ∧
    bas_get (⟨base_new none none, []⟩ : ByteArrayObjectData).storage 0 = none ∧
    (delete_property ⟨base_new none none, []⟩ ⟨.public, "0"⟩).1 = true := by
  refine ⟨by decide, rfl, rfl⟩

/-- C4 amended: `delete_property` returns `true` for every public name parsing
as an index — even when the index is at or beyond the buffer length and no
element exists to remove — and for a name that is not an index it returns
whether a generic-table entry was removed. -/
theorem c4_delete_return_amended (o : ByteArrayObjectData) (name : QName) :
    (∀ i, indexOf name = some i → (delete_property o name).1 = true) ∧
    (indexOf name = none → (delete_property o name).1 = base_has o.base name) := by
  constructor
  · intro i hi
    simp [delete_property, hi]
  · intro hn
    simp [delete_property, hn, base_delete]

/-- Witness for C4 amended: out-of-bounds index name "5" reports true on an
empty buffer; table name "x" reports whether the table held it. -/
theorem c4_witness :
    (delete_property ⟨base_new none none, []⟩ ⟨.public, "5"⟩).1 = true ∧
    (delete_property ⟨base_new none none, []⟩ ⟨.public, "x"⟩).1 =
      base_has (base_new none none) ⟨.public, "x"⟩ :=
  ⟨(c4_delete_return_amended ⟨base_new none none, []⟩ ⟨.public, "5"⟩).1 5 (by decide),
    (c4_delete_return_amended ⟨base_new none none, []⟩ ⟨.public, "x"⟩).2 (by decide)⟩

/-- C5: the index of `charAt`/`charCodeAt` goes through the floating-point
coercion; any negative coerced index yields `""` (charAt) or NaN (charCodeAt)
regardless of the receiver string, a NaN index is normalized to index 0, and
`charAt(NaN)` returns the string's first character (stated for a first
character in the Basic Multilingual Plane, where one character is one UTF-16
code unit). -/
theorem c5_char_index_coercion (s : String) (q : ℚ) (hq : q < 0) :
    char_at (some (.string s)) [.num (.val q)] = .ok (.string "") ∧
    char_code_at (some (.string s)) [.num (.val q)] = .ok (.num .nan) ∧
    char_at (some (.string s)) [.num .nan] = char_at (some (.string s)) [.num (.val 0)] ∧
    (∀ c cs, s.toList = c :: cs → c.toNat < 0x10000 →
      char_at (some (.string s)) [.num .nan] = .ok (.string c.toString)) := by
  refine ⟨?_, ?_, ?_, ?_⟩
  · simp [char_at, value_of, coerce_to_number, getArg, AvmFloat.lt_zero, hq]
  · simp [char_code_at, value_of, coerce_to_number, getArg, AvmFloat.lt_zero, hq]
  · have h0 : (Rat.floor 0).toNat ⊓ usizeMax = 0 := by decide
    simp [char_at, value_of, coerce_to_number, getArg, AvmFloat.lt_zero,
      AvmFloat.is_nan, AvmFloat.toUsize, h0]
  · intro c cs hs hBMP
    have hv : Nat.isValidChar c.toNat := c.valid
    have henc : encodeUtf16 s = c.toNat :: cs.flatMap charUtf16 := by
      unfold encodeUtf16
      rw [hs]
      simp [charUtf16, hBMP]
    simp [char_at, value_of, coerce_to_number, getArg, AvmFloat.lt_zero,
      AvmFloat.is_nan, AvmFloat.toUsize, henc, utf16_code_unit_to_char, hv,
      Char.ofNat_toNat]

/-- Witness for C5 on "abc" with index -1 and NaN. -/
theorem c5_witness :
    char_at (some (.string "abc")) [.num (.val (-1))] = .ok (.string "") ∧
    char_code_at (some (.string "abc")) [.num (.val (-1))] = .ok (.num .nan) ∧
    char_at (some (.string "abc")) [.num .nan] = .ok (.string 'a'.toString) :=
  have h := c5_char_index_coercion "abc" (-1) (by norm_num)
  ⟨h.1, h.2.1, h.2.2.2 'a' ['b', 'c'] (by decide) (by decide)⟩

/-- C6: splitting with an empty-string delimiter yields exactly the receiver's
characters, one single-character string each, with no empty-string entry
anywhere (in particular none leading or trailing). -/
theorem c6_split_empty_delimiter (recv : String) (hlen : recv.length < 2 ^ 64) :
    split (some (.string recv)) [.string ""] =
      .ok (.array (recv.toList.map (fun c => .string c.toString))) ∧
    ∀ v ∈ recv.toList.map (fun c => Value.string c.toString), v ≠ .string "" := by
  constructor
  · simp [split, getArg, Value.isUndefined, coerce_to_string]
    simp only [usizeMax]
    omega
  · intro v hv
    rcases List.mem_map.1 hv with ⟨c, _, rfl⟩
    intro hEq
    have hdata := congrArg String.data (Value.string.inj hEq)
    simp [Char.toString, String.push] at hdata

/-- Witness for C6 on "abc": the result is the three one-character strings. -/
theorem c6_witness :
    "abc".length < 2 ^ 64 ∧
    split (some (.string "abc")) [.string ""] =
      .ok (.array ("abc".toList.map (fun c => .string c.toString))) :=
  ⟨by decide, (c6_split_empty_delimiter "abc" (by decide)).1⟩

/-- C7: `split` with an undefined delimiter — whether the argument list is
empty or explicitly passes undefined — returns a one-element array holding the
original receiver value unconverted, whatever that value is. -/
theorem c7_split_undefined_delimiter (v : Value) :
    split (some v) [] = .ok (.array [v]) ∧
    split (some v) [.undefined] = .ok (.array [v]) :=
  ⟨rfl, rfl⟩

/-- C8: `derive` on a ByteArrayObject allocates a fresh ByteArrayObject cell
whose buffer is empty (and whose prototype is the source); the fresh address
differs from the source's address, and every pre-existing cell — the source
included — is untouched, independent of the source's buffer contents. -/
theorem c8_derive_empty_fresh (h : Heap) (a : Nat) (ha : a < h.length) :
    (bytearray_derive h a).2[(bytearray_derive h a).1]? =
      some (.byteArray ⟨base_new (some a) none, ByteArrayStorage.new⟩) ∧
    (bytearray_derive h a).1 ≠ a ∧
    ∀ b, b < h.length → (bytearray_derive h a).2[b]? = h[b]? := by
  refine ⟨?_, ?_, ?_⟩
  · exact List.getElem?_concat_length _ _
  · simp only [bytearray_derive, allocate]
    omega
  · intro b hb
    simp only [bytearray_derive, allocate]
    exact List.getElem?_append_left hb

/-- Witness for C8 on a one-cell heap whose object holds bytes. -/
theorem c8_witness :
    (0 : Nat) < ([(.byteArray ⟨base_new none none, [9, 9]⟩)] : Heap).length ∧
    (bytearray_derive [.byteArray ⟨base_new none none, [9, 9]⟩] 0).2[
        (bytearray_derive [.byteArray ⟨base_new none none, [9, 9]⟩] 0).1]? =
      some (.byteArray ⟨base_new (some 0) none, ByteArrayStorage.new⟩) ∧
    (bytearray_derive [.byteArray ⟨base_new none none, [9, 9]⟩] 0).1 ≠ 0 :=
  have h := c8_derive_empty_fresh [.byteArray ⟨base_new none none, [9, 9]⟩] 0 (by decide)
  ⟨by decide, h.1, h.2.1⟩

/-- C9: the application-domain allocator fails — reporting an error and
constructing nothing — when the constructor class has no scope stack, and when
the globals object at the base of the constructor's scope carries no
application domain. -/
theorem c9_appdomain_allocator_failure (c : CtorClass) (p : Nat) :
    (c.scope = none →
      appdomain_allocator c p = .error "Constructor has an empty scope stack") ∧
    (∀ g, c.scope = some g → g.as_application_domain = none →
      appdomain_allocator c p =
        .error "Constructor scope must have an appdomain at the bottom of it's scope stack") := by
  constructor
  · intro hs
    simp [appdomain_allocator, hs]
  · intro g hs hg
    simp [appdomain_allocator, hs, hg]

/-- Witness for C9: both failure modes at concrete inputs. -/
theorem c9_witness :
    appdomain_allocator ⟨none, 0⟩ 1 = .error "Constructor has an empty scope stack" ∧
    appdomain_allocator ⟨some ⟨none⟩, 0⟩ 1 =
      .error "Constructor scope must have an appdomain at the bottom of it's scope stack" :=
  ⟨(c9_appdomain_allocator_failure ⟨none, 0⟩ 1).1 rfl,
    (c9_appdomain_allocator_failure ⟨some ⟨none⟩, 0⟩ 1).2 ⟨none⟩ rfl rfl⟩

/-- C10: every String builtin called without a receiver succeeds with
Undefined rather than erroring, and `length`/`charAt`/`charCodeAt` also
succeed with Undefined when the receiver's `value_of` is not a String value. -/
theorem c10_builtin_receiver_fallback (args : List Value) (t : Value)
    (ht : Value.isStringV (value_of t) = false) :
    length none args = .ok .undefined ∧
    char_at none args = .ok .undefined ∧
    char_code_at none args = .ok .undefined ∧
    split none args = .ok .undefined ∧
    length (some t) args = .ok .undefined ∧
    char_at (some t) args = .ok .undefined ∧
    char_code_at (some t) args = .ok .undefined := by
  refine ⟨rfl, rfl, rfl, rfl, ?_, ?_, ?_⟩ <;>
    cases hv : value_of t <;>
    simp_all [Value.isStringV, length, char_at, char_code_at]

/-- Witness for C10 with a plain object receiver (whose `value_of` is itself,
not a String). -/
theorem c10_witness :
    Value.isStringV (value_of (.object none)) = false ∧
    split none [] = .ok .undefined ∧
    length (some (.object none)) [] = .ok .undefined ∧
    char_at (some (.object none)) [] = .ok .undefined ∧
    char_code_at (some (.object none)) [] = .ok .undefined :=
  have h := c10_builtin_receiver_fallback [] (.object none) rfl
  ⟨rfl, h.2.2.2.1, h.2.2.2.2.1, h.2.2.2.2.2.1, h.2.2.2.2.2.2⟩

end Avm2
